import Mathlib

/-!
Verification of the fit_validate devicetree schema validator.

Shallow embedding of `src/fit_validate/elements.py` and
`src/fit_validate/fdt_validate.py`.

Python objects with mutable `parent` back-references are embedded as arenas:
the schema is a `List SchemaElem` addressed by index, the parsed devicetree a
`List FdtNode` addressed by index; an object attribute holding a reference
becomes an `Option Nat` index.  Python exceptions (`ValueError` raised by
`FdtValidator.fail` under `raise_on_error`, `AttributeError` from attribute
access on `None` or on an object lacking the attribute, `TypeError` from the
`re` module on a non-string) are embedded as the `Except PyErr` monad.  The
external collaborators (the `re` regex module and the custom validator
callbacks injected into `PropCustom`/`PropAny`) are parameters of the
validator context `Ctx`.
-/

/-- A Python exception escaping the validator. -/
inductive PyErr where
  | valueError (msg : String)
  | attributeError
  | typeError
  | recursionError
deriving Repr, DecidableEq

deriving instance DecidableEq for Except

/-- Mutable state of a validator run: `self._errors`, the ordered list of
recorded findings. -/
structure VState where
  errors : List String
deriving Repr, DecidableEq

/-- The concrete Python class of a schema element, mirroring the class
hierarchy of `elements.py` (`SchemaElement` with `NodeDesc` / `PropDesc`
branches). -/
inductive EKind where
  | nodeDesc
  | nodeModel
  | nodeSubmodel
  | nodeAny
  | nodeImage
  | nodeConfig
  | propDesc
  | propString
  | propInt
  | propTimestamp
  | propAddressCells
  | propBool
  | propStringList
  | propPhandleTarget
  | propPhandle
  | propCustom
  | propAny
  | propOneOf
deriving Repr, DecidableEq

/-- Python `isinstance(e, NodeDesc)`: `NodeDesc` and all its subclasses. -/
def EKind.isNodeDesc : EKind → Bool
  | .nodeDesc | .nodeModel | .nodeSubmodel | .nodeAny | .nodeImage | .nodeConfig => true
  | _ => false

/-- Python `isinstance(e, NodeAny)`: `NodeAny` and its subclasses
`NodeImage`, `NodeConfig`. -/
def EKind.isNodeAny : EKind → Bool
  | .nodeAny | .nodeImage | .nodeConfig => true
  | _ => false

/-- Python `isinstance(e, PropDesc)`: `PropDesc` and all its subclasses. -/
def EKind.isPropDesc : EKind → Bool
  | .propDesc | .propString | .propInt | .propTimestamp | .propAddressCells
  | .propBool | .propStringList | .propPhandleTarget | .propPhandle
  | .propCustom | .propAny | .propOneOf => true
  | _ => false

/-- Python `isinstance(e, PropAny)`. -/
def EKind.isPropAny : EKind → Bool
  | .propAny => true
  | _ => false

/-- A schema element (`SchemaElement` of `elements.py`) as one arena entry.
`parent` and `elements` hold arena indices; `elements` is `none` for
property elements, which never receive the attribute (`NodeDesc.__init__`
alone sets `self.elements`), so that reading it raises like Python does.
`has_validator` marks a `PropAny` constructed with a validator callback. -/
structure SchemaElem where
  name : String
  kind : EKind
  required : Bool := false
  conditional_props : List (String × Bool) := []
  parent : Option Nat := none
  elements : Option (List Nat) := none
  str_pattern : String := ""
  target_path_match : String := ""
  has_validator : Bool := false
deriving Repr, DecidableEq

/-- Type tag of a devicetree property value (`dtoc.fdt.Type`). -/
inductive PType where
  | INT
  | STRING
  | STRINGLIST
  | BOOL
  | BYTES
deriving Repr, DecidableEq

/-- A devicetree property value as the external fdt library decodes it. -/
inductive PropVal where
  | intVal (n : Nat)
  | strVal (s : String)
  | listVal (l : List String)
  | emptyVal
deriving Repr, DecidableEq

/-- A devicetree property (`fdt.Prop`). -/
structure FdtProp where
  name : String
  typ : PType := .BYTES
  value : PropVal := .emptyVal
deriving Repr, DecidableEq

/-- A devicetree node (`fdt.Node`) as one arena entry: `subnodes` holds arena
indices in document order, `parent` the enclosing node's index (`none` for
the root). -/
structure FdtNode where
  name : String
  path : String
  props : List FdtProp := []
  subnodes : List Nat := []
  parent : Option Nat := none
deriving Repr, DecidableEq

/-- The validator (`FdtValidator.__init__`) together with the arenas its
object references point into and the external collaborators: `reMatch`
stands for `re.match(pattern, s)` succeeding (the pattern is passed with the
`'^' + p + '$'` anchors already attached), `runCustom` for the injected
`PropCustom`/`PropAny` validator callbacks, `phandles` for
`fdt.LookupPhandle`. -/
structure Ctx where
  sch : List SchemaElem
  tree : List FdtNode
  phandles : List (Nat × Nat) := []
  schemaRoot : Nat := 0
  raise_on_error : Bool := false
  reMatch : String → String → Bool := fun _ _ => true
  runCustom : Nat → FdtProp → VState → Except PyErr VState := fun _ _ st => .ok st

/-- Arena read of a schema element (a Python reference is always valid; the
default is unreachable on indices produced by construction). -/
def getE (sch : List SchemaElem) (i : Nat) : SchemaElem :=
  sch.getD i { name := "", kind := .propDesc }

/-- Arena read of a devicetree node. -/
def getN (tree : List FdtNode) (i : Nat) : FdtNode :=
  tree.getD i { name := "", path := "" }

/-- Python attribute access on a reference that may be `None`: reading any
attribute of `None` raises `AttributeError`. -/
def nodeAttr {α : Type} : Option α → Except PyErr α
  | none => .error .attributeError
  | some a => .ok a

/-- Reading `e.elements`: only node elements carry the attribute. -/
def elementsAttr (e : SchemaElem) : Except PyErr (List Nat) :=
  match e.elements with
  | none => .error .attributeError
  | some l => .ok l

/-- Python `'@' in name` (single-character containment). -/
def hasAddrMarker (s : String) : Bool :=
  s.data.contains '@'

/-- `fdt_util.fdt32_to_cpu`: decode a single 32-bit cell; anything that is
not cell data raises. -/
def fdt32_to_cpu : PropVal → Except PyErr Nat
  | .intVal n => .ok (n % 2 ^ 32)
  | _ => .error .typeError

/-- Python `str.split(sep)` over the characters of a string: separator
occurrences delimit (possibly empty) fields. -/
def splitChars (sep : Char) : List Char → List (List Char)
  | [] => [[]]
  | c :: cs =>
    match splitChars sep cs with
    | [] => if c = sep then [[], []] else [[c]]
    | h :: t => if c = sep then [] :: h :: t else (c :: h) :: t

/-- Python `s.split('/')` as the validator applies it to slash-separated
paths. -/
def pySplit (s : String) (sep : Char) : List String :=
  (splitChars sep s.data).map String.mk

/-- The leading `'../'` segments of a conditional-property name: how many
times `name.startswith('../')` strips, and the remaining name. -/
def stripDots : List Char → Nat × List Char
  | '.' :: '.' :: '/' :: rest =>
    let r := stripDots rest
    (r.1 + 1, r.2)
  | cs => (0, cs)

/-- The `while name.startswith('../')` loop of `FdtValidator.element_present`:
one step up the schema-parent and tree-parent chains per `'../'`.  Stepping
from `None` is the Python `None.parent` attribute error. -/
def walkUp (ctx : Ctx) : Nat → Option Nat → Option Nat → Except PyErr (Option Nat × Option Nat)
  | 0, st, nt => .ok (st, nt)
  | k + 1, st, nt => do
    let s ← nodeAttr st
    let n ← nodeAttr nt
    walkUp ctx k (getE ctx.sch s).parent (getN ctx.tree n).parent

/-- The names of the properties and subnodes actually present on a tree
node (`set(node_target.props.keys()) | set(n.name for n in
node_target.subnodes)`; a list stands for the set, membership is all that is
read). -/
def siblingNames (ctx : Ctx) (n : Nat) : List String :=
  (getN ctx.tree n).props.map (·.name) ++ (getN ctx.tree n).subnodes.map fun i => (getN ctx.tree i).name

/-- One iteration of the `conditional_props` loop of
`FdtValidator.element_present`: `true` when the condition does not conflict
(`name in parent_props and value != (name in sibling_names)` is the conflict). -/
def condPasses (ctx : Ctx) (schema : SchemaElem) (pn : Nat) (c : String × Bool) :
    Except PyErr Bool := do
  let ds := stripDots c.1.data
  let name := String.mk ds.2
  let w ← walkUp ctx ds.1 schema.parent (some pn)
  let s ← nodeAttr w.1
  let els ← elementsAttr (getE ctx.sch s)
  let n ← nodeAttr w.2
  let parent_props := els.map fun i => (getE ctx.sch i).name
  .ok (!(parent_props.contains name && (c.2 != (siblingNames ctx n).contains name)))

/-- The `for rel_name, value in schema.conditional_props.items()` loop:
return `False` at the first conflicting condition, `True` past the last. -/
def condsLoop (ctx : Ctx) (schema : SchemaElem) (pn : Nat) :
    List (String × Bool) → Except PyErr Bool
  | [] => .ok true
  | c :: rest => do
    let ok ← condPasses ctx schema pn c
    if ok then condsLoop ctx schema pn rest else .ok false

/-- `FdtValidator.element_present(schema, parent_node)`: resolves
`conditional_props` against the siblings of `parent_node`; with no
conditions, or no parent node given, the element is present. -/
def element_present (ctx : Ctx) (schema : SchemaElem) (parent_node : Option Nat) :
    Except PyErr Bool :=
  match parent_node with
  | some pn =>
    if schema.conditional_props.isEmpty then .ok true
    else condsLoop ctx schema pn schema.conditional_props
  | none => .ok true

/-- The `expected` argument of `FdtValidator.get_element`: the Python class
object `NodeDesc` or `PropDesc` (`none` embeds the Python `None` default). -/
inductive Expected where
  | node
  | prop
deriving Repr, DecidableEq

/-- `FdtValidator._is_builtin_property(node, prop_name)`: `reg` is built in
when the owning node's name carries an `@` marker, `#address-cells` and
`#size-cells` when some subnode's name does. -/
def is_builtin_property (ctx : Ctx) (node : Option Nat) (prop_name : String) :
    Except PyErr Bool := do
  if prop_name = "reg" then
    let n ← nodeAttr node
    if hasAddrMarker (getN ctx.tree n).name then
      return true
  if prop_name = "#address-cells" ∨ prop_name = "#size-cells" then
    let n ← nodeAttr node
    if (getN ctx.tree n).subnodes.any (fun i => hasAddrMarker (getN ctx.tree i).name) then
      return true
  return false

/-- Whether one loop iteration of `FdtValidator.get_element` accepts element
`e` for lookup name `name`: an exact name match, a `NodeAny` when a node (or
either) is expected, or a `PropAny` when a property (or either) is expected. -/
def elementMatches (ctx : Ctx) (name : String) (expected : Option Expected) (e : Nat) : Bool :=
  (getE ctx.sch e).name = name
    || ((expected = none || expected = some .node) && (getE ctx.sch e).kind.isNodeAny)
    || ((expected = none || expected = some .prop) && (getE ctx.sch e).kind.isPropAny)

/-- The `for element in schema.elements` loop of `FdtValidator.get_element`:
skip elements that `element_present` rules out, return the first accepted
element, `none` past the end. -/
def get_element_loop (ctx : Ctx) (name : String) (node : Option Nat) (expected : Option Expected) :
    List Nat → Except PyErr (Option Nat)
  | [] => .ok none
  | e :: rest => do
    let p ← element_present ctx (getE ctx.sch e) node
    if !p then get_element_loop ctx name node expected rest
    else if (getE ctx.sch e).name = name then .ok (some e)
    else if (expected = none || expected = some .node) && (getE ctx.sch e).kind.isNodeAny then
      .ok (some e)
    else if (expected = none || expected = some .prop) && (getE ctx.sch e).kind.isPropAny then
      .ok (some e)
    else get_element_loop ctx name node expected rest

/-- `FdtValidator.get_element(schema, name, node, expected)`: the matching
child element of node-kind element `schema` paired with whether the name
needs a schema at all (`linux,phandle` and built-in properties need none
when a property was expected). -/
def get_element (ctx : Ctx) (schema : Nat) (name : String) (node : Option Nat)
    (expected : Option Expected) : Except PyErr (Option Nat × Bool) := do
  let els ← elementsAttr (getE ctx.sch schema)
  match ← get_element_loop ctx name node expected els with
  | some e => .ok (some e, true)
  | none =>
    if expected = some .prop then
      if name = "linux,phandle" then .ok (none, false)
      else do
        let b ← is_builtin_property ctx node name
        if b then .ok (none, false) else .ok (none, true)
    else .ok (none, true)

/-- `FdtValidator.get_element_by_path(path)`: resolve each path component by
`get_element` with no node context and no expected kind, starting from the
validator's schema root.  Stepping from a failed lookup reads
`None.elements` in Python. -/
def get_element_by_path (ctx : Ctx) (path : String) : Except PyErr (Option Nat) :=
  ((pySplit path '/').drop 1).foldlM
    (fun schema part => do
      let s ← nodeAttr schema
      let r ← get_element ctx s part none none
      .ok r.1)
    (some ctx.schemaRoot)

/-- `FdtValidator.fail(location, msg)`: append `"{location}: {msg}"` to the
error list; under `raise_on_error` raise `ValueError` carrying that entry
(`self._errors[-1]`), aborting the run. -/
def fail (ctx : Ctx) (st : VState) (location msg : String) : Except PyErr VState :=
  let entry := location ++ ": " ++ msg
  if ctx.raise_on_error then .error (.valueError entry)
  else .ok ⟨st.errors ++ [entry]⟩

/-- `check_phandle_target(target, target_path_match)` of `elements.py`, on
the target node's path: split both on `/`, require equal segment counts and
per-segment equality outside literal `ANY` template segments. -/
def check_phandle_target (target_path : String) (target_path_match : String) : Bool :=
  let parts := pySplit target_path_match '/'
  let target_parts := pySplit target_path '/'
  if parts.length = target_parts.length then
    parts.enum.foldl
      (fun valid pi =>
        if pi.2 = "ANY" then valid
        else if pi.2 ≠ target_parts.getD pi.1 "" then false
        else valid)
      true
  else false

/-- `os.path.dirname` for the slash-separated node paths the validator
feeds it. -/
def dirname (p : String) : String :=
  let cs := p.data
  let head := cs.take (cs.length - (cs.reverse.takeWhile (· ≠ '/')).length)
  if head ≠ [] ∧ head.any (· ≠ '/') then String.mk (head.reverse.dropWhile (· = '/')).reverse
  else String.mk head

/-- Python `str(value)` as it appears inside the validator's f-string
messages. -/
def pvRepr : PropVal → String
  | .intVal n => toString n
  | .strVal s => s
  | .listVal l => String.intercalate ", " l
  | .emptyVal => "True"

/-- The argument of the polymorphic `SchemaElement.validate(val,
prop_or_node)`: a tree node, or a property together with its owning node. -/
inductive VTarget where
  | node (n : Nat)
  | prop (n : Nat) (p : FdtProp)
deriving Repr

/-- Reading `prop.<attribute>` inside a `validate_prop` body: raises when the
dispatch handed it a node instead. -/
def propAttr : VTarget → Except PyErr (Nat × FdtProp)
  | .prop n p => .ok (n, p)
  | .node _ => .error .attributeError

/-- Reading `node.<attribute>` inside a `validate_node` body. -/
def nodeTarget : VTarget → Except PyErr Nat
  | .node n => .ok n
  | .prop _ _ => .error .attributeError

/-- `re.match('^' + pattern + '$', s)` through the external `re`
collaborator; a non-string subject raises like `re` does. -/
def reFullMatch (ctx : Ctx) (pattern : String) : PropVal → Except PyErr Bool
  | .strVal s => .ok (ctx.reMatch ("^" ++ pattern ++ "$") s)
  | _ => .error .typeError

/-- `PropStringList.validate_prop`'s `for item in prop.value`: Python
iteration over a decoded string list, or over the characters of a plain
string; other values do not iterate. -/
def strListItems : PropVal → Except PyErr (List String)
  | .listVal l => .ok l
  | .strVal s => .ok (s.data.map fun c => String.mk [c])
  | _ => .error .typeError

/-- `SchemaElement.validate(val, prop_or_node)`: the subclass override for
element `e`, threading the validator state.  `PropAddressCells.validate_prop`
is embedded with its `val = fdt_util.fdt32_to_cpu(prop.value)` rebinding of
the validator argument: past that line a failing range check calls `.fail`
on an `int`, raising `AttributeError`. -/
def validate_elem (ctx : Ctx) (e : Nat) (t : VTarget) (st : VState) : Except PyErr VState :=
  match (getE ctx.sch e).kind with
  | .nodeDesc | .nodeModel | .nodeSubmodel => .ok st
  | .nodeAny | .nodeImage | .nodeConfig =>
    if (getE ctx.sch e).str_pattern = "" then .ok st
    else do
      let n ← nodeTarget t
      let pat := (getE ctx.sch e).str_pattern
      if ctx.reMatch ("^" ++ pat ++ "$") (getN ctx.tree n).name then .ok st
      else
        fail ctx st (getN ctx.tree n).path
          ("Node name '" ++ (getN ctx.tree n).name ++ "' does not match pattern '^" ++ pat ++ "$'")
  | .propDesc | .propBool | .propPhandleTarget | .propOneOf => .ok st
  | .propString => do
    if (getE ctx.sch e).str_pattern = "" then .ok st
    else do
      let np ← propAttr t
      let pat := (getE ctx.sch e).str_pattern
      let m ← reFullMatch ctx pat np.2.value
      if m then .ok st
      else
        fail ctx st (getN ctx.tree np.1).path
          ("'" ++ np.2.name ++ "' value '" ++ pvRepr np.2.value
            ++ "' does not match pattern '^" ++ pat ++ "$'")
  | .propInt | .propTimestamp => do
    let np ← propAttr t
    if np.2.typ ≠ .INT then
      fail ctx st (getN ctx.tree np.1).path
        ("'" ++ np.2.name ++ "' value '" ++ pvRepr np.2.value ++ "' must be a u32")
    else .ok st
  | .propAddressCells => do
    let np ← propAttr t
    let st ←
      if np.2.typ ≠ .INT then
        fail ctx st (getN ctx.tree np.1).path
          ("'" ++ np.2.name ++ "' value '" ++ pvRepr np.2.value ++ "' must be a u32")
      else .ok st
    let v ← fdt32_to_cpu np.2.value
    if v ≠ 1 ∧ v ≠ 2 then .error .attributeError
    else .ok st
  | .propStringList => do
    if (getE ctx.sch e).str_pattern = "" then .ok st
    else do
      let np ← propAttr t
      let pat := (getE ctx.sch e).str_pattern
      let items ← strListItems np.2.value
      items.foldlM
        (fun st item =>
          if ctx.reMatch ("^" ++ pat ++ "$") item then .ok st
          else
            fail ctx st (getN ctx.tree np.1).path
              ("'" ++ np.2.name ++ "' value '" ++ item ++ "' does not match pattern '^" ++ pat ++ "$'"))
        st
  | .propPhandle => do
    let np ← propAttr t
    let phandle ← fdt32_to_cpu np.2.value
    let target := (ctx.phandles.find? (fun pr => pr.1 = phandle)).map (·.2)
    let tgt ← nodeAttr target
    if check_phandle_target (getN ctx.tree tgt).path (getE ctx.sch e).target_path_match then .ok st
    else
      fail ctx st (getN ctx.tree np.1).path
        ("Phandle '" ++ np.2.name ++ "' targets node '" ++ (getN ctx.tree tgt).path
          ++ "' which does not match pattern '" ++ (getE ctx.sch e).target_path_match ++ "'")
  | .propCustom => do
    let np ← propAttr t
    ctx.runCustom e np.2 st
  | .propAny => do
    let np ← propAttr t
    if (getE ctx.sch e).has_validator then ctx.runCustom e np.2 st else .ok st

/-- The body of the `for prop_name in node.props.keys()` loop of
`FdtValidator._validate_schema` for one property: skip `linux,phandle`, look
the property's element up, report an unexpected or mistyped match, otherwise
dispatch the element's value validator. -/
def validate_schema_prop (ctx : Ctx) (schema node : Nat) (schema_props : List String)
    (p : FdtProp) (st : VState) : Except PyErr VState :=
  if p.name = "linux,phandle" then .ok st
  else do
    let r ← get_element ctx schema p.name (some node) (some .prop)
    match r.1 with
    | some e =>
      if (getE ctx.sch e).kind.isPropDesc then validate_elem ctx e (.prop node p) st
      else if p.name = "phandle" then
        fail ctx st (getN ctx.tree node).path "phandle target not valid for this node"
      else do
        let b ← is_builtin_property ctx (some node) p.name
        if b then .ok st
        else
          fail ctx st (getN ctx.tree node).path
            ("Unexpected property '" ++ p.name ++ "', valid list is ("
              ++ String.intercalate ", " schema_props ++ ")")
    | none =>
      if p.name = "phandle" then
        fail ctx st (getN ctx.tree node).path "phandle target not valid for this node"
      else do
        let b ← is_builtin_property ctx (some node) p.name
        if b then .ok st
        else
          fail ctx st (getN ctx.tree node).path
            ("Unexpected property '" ++ p.name ++ "', valid list is ("
              ++ String.intercalate ", " schema_props ++ ")")

/-- `FdtValidator._validate_schema(node, schema)`: the element's own check,
then the per-property loop, then the required-property and required-subnode
checks. -/
def validate_schema (ctx : Ctx) (node schema : Nat) (st : VState) : Except PyErr VState := do
  let st ← validate_elem ctx schema (.node node) st
  let els ← elementsAttr (getE ctx.sch schema)
  let schema_props ← els.foldlM
    (fun acc e => do
      if (getE ctx.sch e).kind.isPropDesc then
        let p ← element_present ctx (getE ctx.sch e) (some node)
        .ok (if p then acc ++ [(getE ctx.sch e).name] else acc)
      else .ok acc)
    ([] : List String)
  let nd := getN ctx.tree node
  let st ← nd.props.foldlM (fun st p => validate_schema_prop ctx schema node schema_props p st) st
  let st ← els.foldlM
    (fun st e => do
      if !(getE ctx.sch e).kind.isPropDesc then .ok st
      else do
        let p ← element_present ctx (getE ctx.sch e) (some node)
        if !p then .ok st
        else if (getE ctx.sch e).required && !(nd.props.any (·.name = (getE ctx.sch e).name)) then
          fail ctx st nd.path ("Required property '" ++ (getE ctx.sch e).name ++ "' missing")
        else .ok st)
    st
  let subnode_names := nd.subnodes.map fun i => (getN ctx.tree i).name
  els.foldlM
    (fun st e => do
      if !((getE ctx.sch e).kind.isNodeDesc && (getE ctx.sch e).required) then .ok st
      else do
        let p ← element_present ctx (getE ctx.sch e) (some node)
        if !p then .ok st
        else if !(subnode_names.contains (getE ctx.sch e).name) then
          fail ctx st nd.path
            ("Missing subnode '" ++ (getE ctx.sch e).name ++ "'"
              ++ (if !subnode_names.isEmpty then " in " ++ String.intercalate ", " subnode_names
                  else ""))
        else .ok st)
    st

/-- The `[e.name for e in parent_schema.get_nodes() if
self.element_present(e, node.parent)]` listing of `FdtValidator.get_schema`:
names of the node-kind elements that pass `element_present`. -/
def valid_node_names (ctx : Ctx) (els : List Nat) (parent : Option Nat) :
    Except PyErr (List String) :=
  (els.filter fun e => (getE ctx.sch e).kind.isNodeDesc).foldlM
    (fun acc e => do
      let p ← element_present ctx (getE ctx.sch e) parent
      .ok (if p then acc ++ [(getE ctx.sch e).name] else acc))
    ([] : List String)

/-- `FdtValidator.get_schema(node, parent_schema)`: resolve the schema
element for subnode `node`; when none is found and one was needed, record
the "Unexpected subnode" failure at `os.path.dirname(node.path)` listing the
valid node-schema names. -/
def get_schema (ctx : Ctx) (node parent_schema : Nat) (st : VState) :
    Except PyErr (Option Nat × VState) := do
  let nd := getN ctx.tree node
  let r ← get_element ctx parent_schema nd.name nd.parent (some .node)
  if r.1.isNone && r.2 then do
    let pEls ← elementsAttr (getE ctx.sch parent_schema)
    let elements ← valid_node_names ctx pEls nd.parent
    let st ← fail ctx st (dirname nd.path)
      ("Unexpected subnode '" ++ nd.name ++ "', valid list is ("
        ++ String.intercalate ", " elements ++ ")")
    .ok (r.1, st)
  else .ok (r.1, st)

/-- `FdtValidator._validate_tree(node, parent_schema)`: the root keeps
`parent_schema`, any other node resolves its schema through `get_schema` and
is skipped entirely when none resolves; otherwise `_validate_schema` runs
and every subnode recurses on the just-resolved schema.  The fuel bounds the
recursion depth of the embedding (Python recurses on an acyclic parsed
tree). -/
def validate_tree (ctx : Ctx) : Nat → Nat → Nat → VState → Except PyErr VState
  | 0, _, _, _ => .error .recursionError
  | fuel + 1, node, parent_schema, st => do
    let nd := getN ctx.tree node
    if nd.name = "/" then do
      let st ← validate_schema ctx node parent_schema st
      nd.subnodes.foldlM (fun st c => validate_tree ctx fuel c parent_schema st) st
    else do
      let r ← get_schema ctx node parent_schema st
      match r.1 with
      | none => .ok r.2
      | some schema => do
        let st ← validate_schema ctx node schema r.2
        nd.subnodes.foldlM (fun st c => validate_tree ctx fuel c schema st) st

/-- `FdtValidator.start(fname)` past the external compile-and-scan step:
reset the error list, validate the whole tree from its root against the
validator's schema root, and return the accumulated error strings. -/
def start (ctx : Ctx) (fuel root : Nat) : Except PyErr (List String) := do
  let st ← validate_tree ctx fuel root ctx.schemaRoot ⟨[]⟩
  .ok st.errors

/-- `NodeDesc.__init__(name, required, elements, conditional_props)`'s
`for element in elements: element.parent = self` pass over an arena: every
child element of node `selfIdx` gets its parent attribute set to `selfIdx`. -/
def NodeDesc.init_parents (sch : List SchemaElem) (selfIdx : Nat) : List SchemaElem :=
  match (getE sch selfIdx).elements with
  | none => sch
  | some els => els.foldl (fun s i => s.set i { getE s i with parent := some selfIdx }) sch

/-- `NodeAny.add_element(elem)` on the arena: the new element is appended
(arena index `sch.length`), its index is appended to the wildcard node's
`elements` list, and — exactly as the source's `elem.parent = elem` line
does — its `parent` attribute is set to the new element itself. -/
def NodeAny.add_element (sch : List SchemaElem) (nodeIdx : Nat) (elem : SchemaElem) :
    List SchemaElem :=
  let newIdx := sch.length
  let sch' := sch.set nodeIdx
    { getE sch nodeIdx with elements := (getE sch nodeIdx).elements.map (· ++ [newIdx]) }
  sch' ++ [{ elem with parent := some newIdx }]

/-- The walk the specification describes for conditional-property
resolution: one step up the schema-parent chain and the tree-parent chain
per leading `'../'` segment, `none` when either chain runs out before the
sibling pair is resolved. -/
def specWalk (ctx : Ctx) : Nat → Option Nat → Option Nat → Option (Nat × Nat)
  | 0, some s, some n => some (s, n)
  | k + 1, some s, some n => specWalk ctx k (getE ctx.sch s).parent (getN ctx.tree n).parent
  | _, _, _ => none

/-- Conjunction over a list of three-valued condition checks: `none` as soon
as a check does not resolve, `false` at the first failing check. -/
def allSome {α : Type} (f : α → Option Bool) : List α → Option Bool
  | [] => some true
  | a :: l =>
    match f a with
    | none => none
    | some true => allSome f l
    | some false => some false

/-- The presence predicate exactly as the specification words it: for each
`(name, expected-presence)` condition, walk the parent chains one step per
leading `'../'`, then require the expected-presence boolean to equal whether
the remaining name appears among the resolved sibling node's property and
child-node names.  Elements without conditions are always present.  `none`
when a walk does not resolve. -/
def element_present_claimed (ctx : Ctx) (schema : SchemaElem) (pn : Nat) : Option Bool :=
  if schema.conditional_props.isEmpty then some true
  else
    allSome
      (fun c =>
        match specWalk ctx (stripDots c.1.data).1 schema.parent (some pn) with
        | none => none
        | some sn =>
          some (c.2 == (siblingNames ctx sn.2).contains (String.mk (stripDots c.1.data).2)))
      schema.conditional_props

/-- One condition of the amended reading: the condition constrains presence
only when its remaining name is among the declared element names of the
resolved schema-side sibling; such a condition requires its
expected-presence boolean to equal the remaining name's membership among the
resolved tree-side sibling's property and child-node names.  `none` when the
walk does not resolve or the resolved schema-side sibling is not a node
element. -/
def amendedCond (ctx : Ctx) (schema : SchemaElem) (pn : Nat) (c : String × Bool) : Option Bool :=
  match specWalk ctx (stripDots c.1.data).1 schema.parent (some pn) with
  | none => none
  | some sn =>
    match (getE ctx.sch sn.1).elements with
    | none => none
    | some els =>
      some (!((els.map fun i => (getE ctx.sch i).name).contains (String.mk (stripDots c.1.data).2))
        || c.2 == (siblingNames ctx sn.2).contains (String.mk (stripDots c.1.data).2))

/-- The presence predicate as the code actually decides it, worded
declaratively over `amendedCond`: every condition must pass. -/
def element_present_amended (ctx : Ctx) (schema : SchemaElem) (pn : Nat) : Option Bool :=
  if schema.conditional_props.isEmpty then some true
  else allSome (amendedCond ctx schema pn) schema.conditional_props

/-- A schema fragment with a node wildcard placed before an exact-name node
element: arena index 0 is the enclosing node, 1 a `NodeAny`, 2 the exact
element named `foo`. -/
def schWildFirst : List SchemaElem :=
  [{ name := "/", kind := .nodeDesc, elements := some [1, 2] },
   { name := "ANY", kind := .nodeAny, elements := some [], parent := some 0 },
   { name := "foo", kind := .nodeDesc, elements := some [], parent := some 0 }]

/-- Validator bound to `schWildFirst` over an empty tree. -/
def ctxWildFirst : Ctx := { sch := schWildFirst, tree := [] }

/-- A schema fragment whose element 1 carries a conditional property naming
`foo`, a name the enclosing node (element 0) does not declare. -/
def schUndeclaredCond : List SchemaElem :=
  [{ name := "p", kind := .nodeDesc, elements := some [1] },
   { name := "x", kind := .propDesc, conditional_props := [("foo", true)], parent := some 0 }]

/-- Validator bound to `schUndeclaredCond`, over a one-node tree with no
properties and no subnodes (so `foo` is absent from the siblings). -/
def ctxUndeclaredCond : Ctx :=
  { sch := schUndeclaredCond, tree := [{ name := "n", path := "/n" }] }

/-- The base arena for a wildcard config node, as `schema.py` builds
`node_config` before specialising it. -/
def node_config_base : List SchemaElem :=
  [{ name := "ANY", kind := .nodeConfig, elements := some [], str_pattern := "conf-\\d+" }]

/-- The arena after `node_config.add_element(PropString('kernel', True))`. -/
def node_config_fit : List SchemaElem :=
  NodeAny.add_element node_config_base 0 { name := "kernel", kind := .propString, required := true }

/-- A two-element schema: a root that declares one subnode `known`. -/
def schKnown : List SchemaElem :=
  [{ name := "/", kind := .nodeDesc, elements := some [1] },
   { name := "known", kind := .nodeDesc, elements := some [], parent := some 0 }]

/-- A tree whose root has one subnode `bad`, which no element of `schKnown`
matches. -/
def treeBad : List FdtNode :=
  [{ name := "/", path := "/", subnodes := [1] },
   { name := "bad", path := "/bad", parent := some 0 }]

/-- Validator bound to `schKnown` over `treeBad`. -/
def ctxBad : Ctx := { sch := schKnown, tree := treeBad }

/-- A root schema declaring only the `#address-cells` property. -/
def schAddrCells : List SchemaElem :=
  [{ name := "/", kind := .nodeDesc, elements := some [1] },
   { name := "#address-cells", kind := .propAddressCells, parent := some 0 }]

/-- A tree whose root carries `#address-cells = <3>`, an out-of-range cell
count. -/
def treeAddr3 : List FdtNode :=
  [{ name := "/", path := "/",
     props := [{ name := "#address-cells", typ := .INT, value := .intVal 3 }] }]

/-- Validator bound to `schAddrCells` over `treeAddr3`, accumulating errors
(`raise_on_error` unset). -/
def ctxAddr3 : Ctx := { sch := schAddrCells, tree := treeAddr3 }

/-- A one-node tree whose root name carries the `@` address marker and
declares a `reg` property that `schKnown` does not mention. -/
def treeRegAt : List FdtNode :=
  [{ name := "chip@1", path := "/chip@1",
     props := [{ name := "reg", typ := .INT, value := .intVal 0 }] }]

/-- Validator bound to `schKnown` over `treeRegAt`. -/
def ctxRegAt : Ctx := { sch := schKnown, tree := treeRegAt }

/-- Bind of a successful `Except` computation. -/
theorem ok_bind {ε α β : Type} (a : α) (f : α → Except ε β) :
    (Except.ok a : Except ε α) >>= f = f a := rfl

/-- A resolving specification-side walk is exactly a code-side walk that ends
on a live schema element and a live tree node. -/
theorem specWalk_walkUp (ctx : Ctx) :
    ∀ (k : Nat) (st nt : Option Nat) (s n : Nat),
      specWalk ctx k st nt = some (s, n) → walkUp ctx k st nt = .ok (some s, some n)
  | 0, st, nt, s, n => by
    cases st <;> cases nt <;> simp [specWalk, walkUp]
  | k + 1, st, nt, s, n => by
    cases st with
    | none => simp [specWalk]
    | some s0 =>
      cases nt with
      | none => simp [specWalk]
      | some n0 =>
        intro h
        have := specWalk_walkUp ctx k (getE ctx.sch s0).parent (getN ctx.tree n0).parent s n h
        simp [walkUp, nodeAttr, Bind.bind, Except.bind, this]

/-- The conflict test of `element_present`, negated, as a guarded equality. -/
theorem bool_conflict_aux : ∀ a v m : Bool, (!(a && (v != m))) = (!a || v == m) := by decide

/-- A resolving amended condition evaluates exactly as the code's
per-condition loop iteration does. -/
theorem amendedCond_condPasses (ctx : Ctx) (schema : SchemaElem) (pn : Nat)
    (c : String × Bool) (r : Bool) (h : amendedCond ctx schema pn c = some r) :
    condPasses ctx schema pn c = .ok r := by
  unfold amendedCond at h
  unfold condPasses
  rcases hw : specWalk ctx (stripDots c.1.data).1 schema.parent (some pn) with _ | ⟨s, n⟩
  · rw [hw] at h
    exact absurd h (by simp)
  · rw [hw] at h
    dsimp only at h ⊢
    rcases hels : (getE ctx.sch s).elements with _ | els
    · rw [hels] at h
      exact absurd h (by simp)
    · rw [hels] at h
      have hwu := specWalk_walkUp ctx (stripDots c.1.data).1 schema.parent (some pn) s n hw
      rw [hwu, ok_bind]
      rw [show nodeAttr (some s) = (Except.ok s : Except PyErr Nat) from rfl, ok_bind]
      rw [show elementsAttr (getE ctx.sch s) = (Except.ok els : Except PyErr (List Nat)) by
        rw [elementsAttr, hels], ok_bind]
      rw [show nodeAttr (some n) = (Except.ok n : Except PyErr Nat) from rfl, ok_bind]
      rw [bool_conflict_aux]
      exact congrArg Except.ok (Option.some.inj h)

/-- A resolving amended condition list evaluates exactly as the code's
condition loop does. -/
theorem allSome_condsLoop (ctx : Ctx) (schema : SchemaElem) (pn : Nat) :
    ∀ (cps : List (String × Bool)) (b : Bool),
      allSome (amendedCond ctx schema pn) cps = some b →
      condsLoop ctx schema pn cps = .ok b
  | [], b => by
    intro h
    simp [allSome] at h
    simp [condsLoop, h]
  | c :: rest, b => by
    intro h
    unfold allSome at h
    unfold condsLoop
    rcases hc : amendedCond ctx schema pn c with _ | r
    · rw [hc] at h
      exact absurd h (by simp)
    · rw [hc] at h
      rw [amendedCond_condPasses ctx schema pn c r hc, ok_bind]
      cases r with
      | true =>
        simp only [if_pos rfl]
        exact allSome_condsLoop ctx schema pn rest b h
      | false =>
        cases Option.some.inj h
        simp

/-- The element-lookup loop returns the first element, in list order, that
passes `element_present` and matches the lookup (exactly or as an applicable
wildcard). -/
theorem get_element_loop_first_match (ctx : Ctx) (name : String) (node : Option Nat)
    (expected : Option Expected) (pres : Nat → Bool) :
    ∀ els : List Nat,
      (∀ e ∈ els, element_present ctx (getE ctx.sch e) node = .ok (pres e)) →
      get_element_loop ctx name node expected els =
        .ok (els.find? fun e => pres e && elementMatches ctx name expected e)
  | [], _ => rfl
  | e :: rest, h => by
    have he := h e (by simp)
    have hr := get_element_loop_first_match ctx name node expected pres rest
      (fun x hx => h x (by simp [hx]))
    unfold get_element_loop
    rw [he]
    simp only [Bind.bind, Except.bind]
    by_cases hp : pres e
    · simp only [hp, Bool.not_true, if_neg (by simp : ¬(false = true))]
      by_cases h1 : (getE ctx.sch e).name = name
      · simp [List.find?, elementMatches, h1, hp]
      · by_cases h2 : (expected = none || expected = some .node) && (getE ctx.sch e).kind.isNodeAny
        · simp [List.find?, elementMatches, h1, h2, hp]
        · by_cases h3 : (expected = none || expected = some .prop) && (getE ctx.sch e).kind.isPropAny
          · simp [List.find?, elementMatches, h1, h2, h3, hp]
          · simp [List.find?, elementMatches, h1, h2, h3, hp, hr]
    · simp only [Bool.not_eq_true] at hp
      simp [hp, List.find?, hr]

/-- The per-segment flag fold of `check_phandle_target` is true exactly when
the flag started true and every indexed template segment is `ANY` or equals
the target segment at its index. -/
theorem phandle_fold_aux (target_parts : List String) :
    ∀ (l : List (Nat × String)) (b : Bool),
      (l.foldl
        (fun valid pi =>
          if pi.2 = "ANY" then valid
          else if pi.2 ≠ target_parts.getD pi.1 "" then false
          else valid)
        b) = true ↔
      (b = true ∧ ∀ pi ∈ l, pi.2 = "ANY" ∨ pi.2 = target_parts.getD pi.1 "")
  | [], b => by simp
  | pi :: rest, b => by
    rw [List.foldl_cons]
    rw [phandle_fold_aux target_parts rest]
    constructor
    · rintro ⟨hb, hall⟩
      by_cases h1 : pi.2 = "ANY"
      · rw [if_pos h1] at hb
        exact ⟨hb, by
          intro x hx
          rcases List.mem_cons.mp hx with h | h
          · exact h ▸ Or.inl h1
          · exact hall x h⟩
      · rw [if_neg h1] at hb
        by_cases h2 : pi.2 = target_parts.getD pi.1 ""
        · rw [if_neg (not_not_intro h2)] at hb
          exact ⟨hb, by
            intro x hx
            rcases List.mem_cons.mp hx with h | h
            · exact h ▸ Or.inr h2
            · exact hall x h⟩
        · rw [if_pos h2] at hb
          exact absurd hb (by simp)
    · rintro ⟨hb, hall⟩
      refine ⟨?_, fun x hx => hall x (List.mem_cons.mpr (Or.inr hx))⟩
      rcases hall pi (List.mem_cons.mpr (Or.inl rfl)) with h | h
      · rw [if_pos h]
        exact hb
      · by_cases h1 : pi.2 = "ANY"
        · rw [if_pos h1]; exact hb
        · rw [if_neg h1, if_neg (not_not_intro h)]
          exact hb

/-- `_is_builtin_property` on `reg`: decided by the owning node's name. -/
theorem is_builtin_reg_eq (ctx : Ctx) (n : Nat) :
    is_builtin_property ctx (some n) "reg" = .ok (hasAddrMarker (getN ctx.tree n).name) := by
  cases hm : hasAddrMarker (getN ctx.tree n).name <;>
      simp [is_builtin_property, nodeAttr, hm, Bind.bind, Except.bind] <;>
    rfl

/-- `_is_builtin_property` on the cell-count properties: decided by the
subnode names. -/
theorem is_builtin_cells_eq (ctx : Ctx) (n : Nat) :
    is_builtin_property ctx (some n) "#address-cells"
        = .ok ((getN ctx.tree n).subnodes.any fun i => hasAddrMarker (getN ctx.tree i).name) ∧
      is_builtin_property ctx (some n) "#size-cells"
        = .ok ((getN ctx.tree n).subnodes.any fun i => hasAddrMarker (getN ctx.tree i).name) := by
  constructor <;>
      cases ha : (getN ctx.tree n).subnodes.any fun i => hasAddrMarker (getN ctx.tree i).name <;>
      simp [is_builtin_property, nodeAttr, ha, Bind.bind, Except.bind] <;>
    rfl

/-- The property-loop step on an unmatched `reg` property: accepted silently
when the node name carries `@`, otherwise one "Unexpected property" finding. -/
theorem unexpected_reg_step (ctx : Ctx) (schema node : Nat) (sp : List String) (t : PType)
    (v : PropVal) (st : VState) (els : List Nat)
    (hraise : ctx.raise_on_error = false)
    (hels : (getE ctx.sch schema).elements = some els)
    (hloop : get_element_loop ctx "reg" (some node) (some .prop) els = .ok none) :
    validate_schema_prop ctx schema node sp { name := "reg", typ := t, value := v } st =
      if hasAddrMarker (getN ctx.tree node).name then .ok st
      else .ok ⟨st.errors ++ [(getN ctx.tree node).path ++ ": "
        ++ ("Unexpected property 'reg', valid list is ("
          ++ String.intercalate ", " sp ++ ")")]⟩ := by
  unfold validate_schema_prop
  rw [if_neg (by decide : ¬("reg" = "linux,phandle"))]
  dsimp only
  have hge : get_element ctx schema "reg" (some node) (some .prop) =
      .ok (none, !hasAddrMarker (getN ctx.tree node).name) := by
    unfold get_element
    rw [show elementsAttr (getE ctx.sch schema) = (Except.ok els : Except PyErr (List Nat)) by
      rw [elementsAttr, hels], ok_bind]
    rw [hloop, ok_bind]
    dsimp only
    rw [if_pos rfl, if_neg (by decide : ¬("reg" = "linux,phandle"))]
    rw [is_builtin_reg_eq ctx node, ok_bind]
    cases hm : hasAddrMarker (getN ctx.tree node).name <;> simp [hm]
  rw [hge, ok_bind]
  dsimp only
  rw [if_neg (by decide : ¬("reg" = "phandle"))]
  rw [is_builtin_reg_eq ctx node, ok_bind]
  cases hm : hasAddrMarker (getN ctx.tree node).name
  · rw [if_neg (by simp), if_neg (by simp [hm])]
    unfold fail
    rw [hraise]
    simp
  · rw [if_pos (by simp [hm]), if_pos rfl]

/-- The property-loop step on an unmatched `#address-cells` or `#size-cells`
property: accepted silently when some subnode name carries `@`, otherwise
one "Unexpected property" finding. -/
theorem unexpected_cells_step (ctx : Ctx) (schema node : Nat) (sp : List String) (t : PType)
    (v : PropVal) (st : VState) (els : List Nat) (pn : String)
    (hpn : pn = "#address-cells" ∨ pn = "#size-cells")
    (hraise : ctx.raise_on_error = false)
    (hels : (getE ctx.sch schema).elements = some els)
    (hloop : get_element_loop ctx pn (some node) (some .prop) els = .ok none) :
    validate_schema_prop ctx schema node sp { name := pn, typ := t, value := v } st =
      if (getN ctx.tree node).subnodes.any (fun i => hasAddrMarker (getN ctx.tree i).name)
      then .ok st
      else .ok ⟨st.errors ++ [(getN ctx.tree node).path ++ ": "
        ++ ("Unexpected property '" ++ pn ++ "', valid list is ("
          ++ String.intercalate ", " sp ++ ")")]⟩ := by
  have hbi : is_builtin_property ctx (some node) pn =
      .ok ((getN ctx.tree node).subnodes.any fun i => hasAddrMarker (getN ctx.tree i).name) := by
    rcases hpn with rfl | rfl
    · exact (is_builtin_cells_eq ctx node).1
    · exact (is_builtin_cells_eq ctx node).2
  have hne1 : pn ≠ "linux,phandle" := by rcases hpn with rfl | rfl <;> decide
  have hne2 : pn ≠ "phandle" := by rcases hpn with rfl | rfl <;> decide
  unfold validate_schema_prop
  rw [if_neg hne1]
  dsimp only
  have hge : get_element ctx schema pn (some node) (some .prop) =
      .ok (none,
        !((getN ctx.tree node).subnodes.any fun i => hasAddrMarker (getN ctx.tree i).name)) := by
    unfold get_element
    rw [show elementsAttr (getE ctx.sch schema) = (Except.ok els : Except PyErr (List Nat)) by
      rw [elementsAttr, hels], ok_bind]
    rw [hloop, ok_bind]
    dsimp only
    rw [if_pos rfl, if_neg hne1]
    rw [hbi, ok_bind]
    cases hm : (getN ctx.tree node).subnodes.any fun i => hasAddrMarker (getN ctx.tree i).name <;>
      simp [hm]
  rw [hge, ok_bind]
  dsimp only
  rw [if_neg hne2]
  rw [hbi, ok_bind]
  cases hm : (getN ctx.tree node).subnodes.any fun i => hasAddrMarker (getN ctx.tree i).name
  · rw [if_neg (by simp), if_neg (by simp [hm])]
    unfold fail
    rw [hraise]
    simp
  · rw [if_pos (by simp [hm]), if_pos rfl]

/-- C1 (corrected): at a concrete schema whose element list places a node
wildcard before an exact-name element, `get_element` returns the wildcard
(index 1), not the exact-name match (index 2), although the exact-name
element passes `element_present`: an earlier wildcard wins over a later
exact name, contradicting the claimed unconditional exact-name priority. -/
theorem C1_counterexample :
    get_element ctxWildFirst 0 "foo" none (some .node) = .ok (some 1, true) ∧
      (getE schWildFirst 2).name = "foo" ∧
      element_present ctxWildFirst (getE schWildFirst 2) none = .ok true ∧
      (1 : Nat) ≠ 2 := by
  decide

/-- C1 (amended): `get_element` returns the first element, in the schema's
ordered element list, that passes `element_present` and either matches the
lookup name exactly or is an applicable wildcard (node wildcard when a node
or either is expected, property wildcard when a property or either is
expected); exact-name matches therefore take priority over wildcards only
when no applicable wildcard precedes them in the list. -/
theorem C1_get_element_first_match (ctx : Ctx) (schema : Nat) (name : String)
    (node : Option Nat) (expected : Option Expected) (els : List Nat) (pres : Nat → Bool)
    (e : Nat)
    (hels : (getE ctx.sch schema).elements = some els)
    (h : ∀ x ∈ els, element_present ctx (getE ctx.sch x) node = .ok (pres x))
    (hfind : els.find? (fun x => pres x && elementMatches ctx name expected x) = some e) :
    get_element ctx schema name node expected = .ok (some e, true) := by
  unfold get_element
  rw [show elementsAttr (getE ctx.sch schema) = (Except.ok els : Except PyErr (List Nat)) by
    rw [elementsAttr, hels], ok_bind]
  rw [get_element_loop_first_match ctx name node expected pres els h, hfind]
  rfl

/-- C1 witness: the amended theorem at the concrete wildcard-first schema. -/
theorem C1_witness : get_element ctxWildFirst 0 "foo" none (some .node) = .ok (some 1, true) :=
  C1_get_element_first_match ctxWildFirst 0 "foo" none (some .node) [1, 2] (fun _ => true) 1
    rfl (by decide) (by decide)

/-- C2 (code bug): `NodeAny.add_element` sets the appended element's parent
to the appended element itself (`elem.parent = elem`), not to the enclosing
wildcard node: after appending the `kernel` property to the config wildcard
(arena index 0), the new element (arena index 1) has itself as parent. -/
theorem C2_add_element_parent_self :
    (getE node_config_fit 1).name = "kernel" ∧
      (getE node_config_fit 1).parent = some 1 ∧
      (getE node_config_fit 1).parent ≠ some 0 ∧
      (getE node_config_fit 0).elements = some [1] := by
  decide

/-- C3 (corrected): at a concrete schema whose element 1 carries the
condition `foo: required` while the enclosing node declares no element named
`foo` and the tree node has no property or subnode `foo`, the code reports
the element present, whereas the claimed predicate (expected presence must
equal actual sibling membership for every condition) yields absent. -/
theorem C3_counterexample :
    element_present ctxUndeclaredCond (getE schUndeclaredCond 1) (some 0) = .ok true ∧
      element_present_claimed ctxUndeclaredCond (getE schUndeclaredCond 1) 0 = some false := by
  decide

/-- C3 (amended): whenever the amended presence predicate — which ignores
any condition whose remaining name is not among the resolved schema-side
sibling's declared element names, and otherwise requires the
expected-presence boolean to equal the remaining name's membership among the
resolved tree-side sibling's property and child-node names — resolves to a
boolean, `element_present` computes exactly that boolean. -/
theorem C3_element_present_amended (ctx : Ctx) (schema : SchemaElem) (pn : Nat) (b : Bool)
    (h : element_present_amended ctx schema pn = some b) :
    element_present ctx schema (some pn) = .ok b := by
  unfold element_present_amended at h
  unfold element_present
  dsimp only
  by_cases he : schema.conditional_props.isEmpty
  · rw [if_pos he] at h
    rw [if_pos he]
    cases Option.some.inj h
    rfl
  · rw [if_neg he] at h
    rw [if_neg he]
    exact allSome_condsLoop ctx schema pn schema.conditional_props b h

/-- C3 witness: the amended predicate and the code agree (both present) on
the concrete schema with an undeclared condition name. -/
theorem C3_witness :
    element_present ctxUndeclaredCond (getE schUndeclaredCond 1) (some 0) = .ok true :=
  C3_element_present_amended ctxUndeclaredCond (getE schUndeclaredCond 1) 0 true (by decide)

/-- C4 (confirmed): `check_phandle_target` accepts exactly when the
`/`-split template and the `/`-split target path have the same number of
segments and every template segment is the literal `ANY` or equals the
target segment at the same position; in particular `/a/ANY/b` matches
`/a/x/b` and rejects `/a/x/y` and `/a/b`. -/
theorem C4_check_phandle_target_segments :
    (∀ target_path target_path_match : String,
      (check_phandle_target target_path target_path_match = true ↔
        ((pySplit target_path_match '/').length = (pySplit target_path '/').length ∧
          ∀ pi ∈ (pySplit target_path_match '/').enum,
            pi.2 = "ANY" ∨ pi.2 = (pySplit target_path '/').getD pi.1 ""))) ∧
      check_phandle_target "/a/x/b" "/a/ANY/b" = true ∧
      check_phandle_target "/a/x/y" "/a/ANY/b" = false ∧
      check_phandle_target "/a/b" "/a/ANY/b" = false := by
  refine ⟨?_, by decide, by decide, by decide⟩
  intro tp tmpl
  unfold check_phandle_target
  by_cases hlen : (pySplit tmpl '/').length = (pySplit tp '/').length
  · rw [if_pos hlen]
    rw [phandle_fold_aux (pySplit tp '/') ((pySplit tmpl '/').enum) true]
    simp [hlen]
  · rw [if_neg hlen]
    simp [hlen]

/-- C5 (confirmed): a non-root node whose name no element of the parent's
resolved schema matches (none exact, none wildcard, among elements passing
`element_present`) makes `_validate_tree` record exactly one "Unexpected
subnode" finding — located at the parent level (`os.path.dirname` of the
node path) and listing the valid node-schema names — and return without
descending, so no finding is produced for any property or descendant of the
node. -/
theorem C5_unexpected_subnode_single_finding (ctx : Ctx) (fuel node ps : Nat) (st : VState)
    (pEls : List Nat) (names : List String)
    (hraise : ctx.raise_on_error = false)
    (hroot : (getN ctx.tree node).name ≠ "/")
    (hels : (getE ctx.sch ps).elements = some pEls)
    (hloop : get_element_loop ctx (getN ctx.tree node).name (getN ctx.tree node).parent
      (some .node) pEls = .ok none)
    (hnames : valid_node_names ctx pEls (getN ctx.tree node).parent = .ok names) :
    validate_tree ctx (fuel + 1) node ps st =
      .ok ⟨st.errors ++ [dirname (getN ctx.tree node).path ++ ": "
        ++ ("Unexpected subnode '" ++ (getN ctx.tree node).name ++ "', valid list is ("
          ++ String.intercalate ", " names ++ ")")]⟩ := by
  have hfind : get_element ctx ps (getN ctx.tree node).name (getN ctx.tree node).parent
      (some .node) = .ok (none, true) := by
    unfold get_element
    rw [show elementsAttr (getE ctx.sch ps) = (Except.ok pEls : Except PyErr (List Nat)) by
      rw [elementsAttr, hels], ok_bind]
    rw [hloop, ok_bind]
    rfl
  have hfail : fail ctx st (dirname (getN ctx.tree node).path)
      ("Unexpected subnode '" ++ (getN ctx.tree node).name ++ "', valid list is ("
        ++ String.intercalate ", " names ++ ")") =
      .ok ⟨st.errors ++ [dirname (getN ctx.tree node).path ++ ": "
        ++ ("Unexpected subnode '" ++ (getN ctx.tree node).name ++ "', valid list is ("
          ++ String.intercalate ", " names ++ ")")]⟩ := by
    unfold fail
    rw [hraise]
    simp
  have hsch : get_schema ctx node ps st =
      .ok (none, ⟨st.errors ++ [dirname (getN ctx.tree node).path ++ ": "
        ++ ("Unexpected subnode '" ++ (getN ctx.tree node).name ++ "', valid list is ("
          ++ String.intercalate ", " names ++ ")")]⟩) := by
    unfold get_schema
    dsimp only
    rw [hfind, ok_bind]
    dsimp only [Option.isNone, Bool.and_true]
    rw [if_pos (show (true && true) = true from rfl)]
    rw [show elementsAttr (getE ctx.sch ps) = (Except.ok pEls : Except PyErr (List Nat)) by
      rw [elementsAttr, hels], ok_bind]
    rw [hnames, ok_bind]
    rw [hfail, ok_bind]
  unfold validate_tree
  dsimp only
  rw [if_neg hroot]
  rw [hsch, ok_bind]

/-- C5 witness: the single finding on the concrete tree with the unmatched
subnode `bad` under a schema declaring only `known`. -/
theorem C5_witness :
    validate_tree ctxBad 1 1 0 ⟨[]⟩ =
      .ok ⟨[] ++ [dirname (getN ctxBad.tree 1).path ++ ": "
        ++ ("Unexpected subnode '" ++ (getN ctxBad.tree 1).name ++ "', valid list is ("
          ++ String.intercalate ", " ["known"] ++ ")")]⟩ :=
  C5_unexpected_subnode_single_finding ctxBad 0 1 0 ⟨[]⟩ [1] ["known"]
    rfl (by decide) rfl (by decide) (by decide)

/-- C6 (code bug): on an int-typed `#address-cells` cell decoding to 3,
`PropAddressCells.validate_prop` raises `AttributeError` (its `val = fdt32_to_cpu(...)`
line rebinds the validator argument to an `int`, whose `.fail` the range
check then calls) instead of appending a finding; on cells decoding to 1 or
2 it records nothing and returns normally. -/
theorem C6_address_cells_range_check_crashes :
    validate_elem ctxAddr3 1
        (.prop 0 { name := "#address-cells", typ := .INT, value := .intVal 3 }) ⟨[]⟩
        = .error .attributeError ∧
      validate_elem ctxAddr3 1
        (.prop 0 { name := "#address-cells", typ := .INT, value := .intVal 1 }) ⟨[]⟩
        = .ok ⟨[]⟩ ∧
      validate_elem ctxAddr3 1
        (.prop 0 { name := "#address-cells", typ := .INT, value := .intVal 2 }) ⟨[]⟩
        = .ok ⟨[]⟩ := by
  decide

/-- C7 (code bug): `fail` behaves as claimed — with `raise_on_error` unset it
appends the `location: message` string and continues, with it set it aborts
at the first finding with a `ValueError` carrying that string — but the run
does not always complete with `raise_on_error` unset: a validation over a
tree carrying `#address-cells = <3>` aborts with `AttributeError` through
the rebound-`val` slip of `PropAddressCells.validate_prop`, so `start`
surfaces an exception instead of returning the error list. -/
theorem C7_raise_on_error_and_crash_abort :
    fail ctxAddr3 ⟨[]⟩ "/" "msg" = .ok ⟨["/: msg"]⟩ ∧
      fail { ctxAddr3 with raise_on_error := true } ⟨[]⟩ "/" "msg"
        = .error (.valueError "/: msg") ∧
      ctxAddr3.raise_on_error = false ∧
      start ctxAddr3 5 0 = .error .attributeError := by
  refine ⟨rfl, rfl, rfl, by decide⟩

/-- C8 (confirmed): a property named `linux,phandle` is skipped by the
node-level property loop before any schema lookup (the step leaves the
validator state untouched, so it is never value-validated and never yields a
finding), and `get_element` with a property expected, finding no matching
element for `linux,phandle`, reports it as needing no schema rather than as
an error. -/
theorem C8_linux_phandle_ignored :
    (∀ (ctx : Ctx) (schema node : Nat) (sp : List String) (p : FdtProp) (st : VState),
      p.name = "linux,phandle" → validate_schema_prop ctx schema node sp p st = .ok st) ∧
    (∀ (ctx : Ctx) (schema : Nat) (node : Option Nat) (els : List Nat),
      (getE ctx.sch schema).elements = some els →
      get_element_loop ctx "linux,phandle" node (some .prop) els = .ok none →
      get_element ctx schema "linux,phandle" node (some .prop) = .ok (none, false)) := by
  constructor
  · intro ctx schema node sp p st h
    unfold validate_schema_prop
    rw [if_pos h]
  · intro ctx schema node els hels hloop
    unfold get_element
    rw [show elementsAttr (getE ctx.sch schema) = (Except.ok els : Except PyErr (List Nat)) by
      rw [elementsAttr, hels], ok_bind]
    rw [hloop, ok_bind]
    rfl

/-- C8 witness: the skip and the needs-no-schema lookup at concrete
inputs. -/
theorem C8_witness :
    validate_schema_prop ctxBad 0 0 []
        { name := "linux,phandle", typ := .BYTES, value := .emptyVal } ⟨[]⟩ = .ok ⟨[]⟩ ∧
      get_element ctxBad 0 "linux,phandle" (some 0) (some .prop) = .ok (none, false) :=
  ⟨C8_linux_phandle_ignored.1 ctxBad 0 0 [] _ ⟨[]⟩ rfl,
    C8_linux_phandle_ignored.2 ctxBad 0 (some 0) [1] rfl (by decide)⟩

/-- C9 (confirmed): a `reg` property with no matching schema element
produces no "Unexpected property" finding exactly when the owning node's
name contains `@` (otherwise exactly that finding is appended), and an
unmatched `#address-cells` or `#size-cells` property produces none exactly
when some subnode's name contains `@`. -/
theorem C9_builtin_property_acceptance :
    (∀ (ctx : Ctx) (schema node : Nat) (sp : List String) (t : PType) (v : PropVal)
        (st : VState) (els : List Nat),
      ctx.raise_on_error = false →
      (getE ctx.sch schema).elements = some els →
      get_element_loop ctx "reg" (some node) (some .prop) els = .ok none →
      validate_schema_prop ctx schema node sp { name := "reg", typ := t, value := v } st =
        if hasAddrMarker (getN ctx.tree node).name then .ok st
        else .ok ⟨st.errors ++ [(getN ctx.tree node).path ++ ": "
          ++ ("Unexpected property 'reg', valid list is ("
            ++ String.intercalate ", " sp ++ ")")]⟩) ∧
    (∀ (ctx : Ctx) (schema node : Nat) (sp : List String) (t : PType) (v : PropVal)
        (st : VState) (els : List Nat) (pn : String),
      pn = "#address-cells" ∨ pn = "#size-cells" →
      ctx.raise_on_error = false →
      (getE ctx.sch schema).elements = some els →
      get_element_loop ctx pn (some node) (some .prop) els = .ok none →
      validate_schema_prop ctx schema node sp { name := pn, typ := t, value := v } st =
        if (getN ctx.tree node).subnodes.any (fun i => hasAddrMarker (getN ctx.tree i).name)
        then .ok st
        else .ok ⟨st.errors ++ [(getN ctx.tree node).path ++ ": "
          ++ ("Unexpected property '" ++ pn ++ "', valid list is ("
            ++ String.intercalate ", " sp ++ ")")]⟩) :=
  ⟨fun ctx schema node sp t v st els hraise hels hloop =>
      unexpected_reg_step ctx schema node sp t v st els hraise hels hloop,
    fun ctx schema node sp t v st els pn hpn hraise hels hloop =>
      unexpected_cells_step ctx schema node sp t v st els pn hpn hraise hels hloop⟩

/-- C9 witness: on a node named `chip@1`, an unmatched `reg` property is
accepted without a finding. -/
theorem C9_witness :
    validate_schema_prop ctxRegAt 0 0 []
        { name := "reg", typ := .INT, value := .intVal 0 } ⟨[]⟩ = .ok ⟨[]⟩ := by
  rw [C9_builtin_property_acceptance.1 ctxRegAt 0 0 [] .INT (.intVal 0) ⟨[]⟩ [1]
    rfl rfl (by decide)]
  decide

/-- C10 (confirmed): with no tree-node context (`parent_node` argument
`None`, as in path-based introspection through `get_element_by_path`),
`element_present` returns true for every schema element, whatever its
`conditional_props`: conditional-presence rules gate nothing without a
concrete parent node. -/
theorem C10_element_present_no_context :
    ∀ (ctx : Ctx) (e : SchemaElem), element_present ctx e none = .ok true := by
  intro ctx e
  rfl
